import Mathlib

/-
Verification of the Mergington High School activities API.

The running code is `src/app.py`: an in-memory dictionary `activities`
mapping an activity name to a record with `description`, `schedule`,
`max_participants` and a `participants` list of email strings, plus three
endpoints: `get_activities`, `signup_for_activity` and
`unregister_from_activity`.  We embed the dictionary as an association
list of (name, Activity) pairs and each endpoint as a pure function:
a raised `HTTPException` becomes an `Except.error`, and the in-place
mutation of `activity["participants"]` becomes a functional update of
the association list.
-/

namespace MergingtonApi

/-- Record stored for each activity in the `activities` dictionary of
`src/app.py`. -/
structure Activity where
  description : String
  schedule : String
  max_participants : Nat
  participants : List String
deriving DecidableEq, Repr

/-- The in-memory database: a Python dict keyed by activity name, embedded
as an association list (dict keys are unique; the seed below has unique
names and every operation preserves the key list). -/
abbrev AppState := List (String × Activity)

/-- An HTTPException as raised in `src/app.py`: a status code and a detail
string. -/
structure HTTPError where
  status : Nat
  detail : String
deriving DecidableEq, Repr

/-- The 404 error raised by both endpoints when the activity name is not a
key of `activities`. -/
def activityNotFound : HTTPError := ⟨404, "Activity not found"⟩

/-- The 400 error raised by `signup_for_activity` when the email is already
in the participants list. -/
def alreadySignedUp : HTTPError := ⟨400, "Student is already signed up"⟩

/-- The 400 error raised by `unregister_from_activity` when the email is not
in the participants list. -/
def notSignedUp : HTTPError := ⟨400, "Student is not signed up for this activity"⟩

/-- The seed value of the `activities` dictionary in `src/app.py`
(lines 22-77). -/
def activities : AppState := [
  ("Chess Club",
   { description := "Learn strategies and compete in chess tournaments",
     schedule := "Fridays, 3:30 PM - 5:00 PM",
     max_participants := 12,
     participants := ["michael@mergington.edu", "daniel@mergington.edu"] }),
  ("Programming Class",
   { description := "Learn programming fundamentals and build software projects",
     schedule := "Tuesdays and Thursdays, 3:30 PM - 4:30 PM",
     max_participants := 20,
     participants := ["emma@mergington.edu", "sophia@mergington.edu"] }),
  ("Gym Class",
   { description := "Physical education and sports activities",
     schedule := "Mondays, Wednesdays, Fridays, 2:00 PM - 3:00 PM",
     max_participants := 30,
     participants := ["john@mergington.edu", "olivia@mergington.edu"] }),
  ("Soccer Team",
   { description := "Join the school soccer team and compete in matches",
     schedule := "Tuesdays and Thursdays, 4:00 PM - 5:30 PM",
     max_participants := 22,
     participants := ["liam@mergington.edu", "noah@mergington.edu"] }),
  ("Basketball Team",
   { description := "Practice and play basketball with the school team",
     schedule := "Wednesdays and Fridays, 3:30 PM - 5:00 PM",
     max_participants := 15,
     participants := ["ava@mergington.edu", "mia@mergington.edu"] }),
  ("Art Club",
   { description := "Explore your creativity through painting and drawing",
     schedule := "Thursdays, 3:30 PM - 5:00 PM",
     max_participants := 15,
     participants := ["amelia@mergington.edu", "harper@mergington.edu"] }),
  ("Drama Club",
   { description := "Act, direct, and produce plays and performances",
     schedule := "Mondays and Wednesdays, 4:00 PM - 5:30 PM",
     max_participants := 20,
     participants := ["ella@mergington.edu", "scarlett@mergington.edu"] }),
  ("Math Club",
   { description := "Solve challenging problems and participate in math competitions",
     schedule := "Tuesdays, 3:30 PM - 4:30 PM",
     max_participants := 10,
     participants := ["james@mergington.edu", "benjamin@mergington.edu"] }),
  ("Debate Team",
   { description := "Develop public speaking and argumentation skills",
     schedule := "Fridays, 4:00 PM - 5:30 PM",
     max_participants := 12,
     participants := ["charlotte@mergington.edu", "henry@mergington.edu"] })]

/-- Dictionary lookup `activities[activity_name]`; `none` embeds
`activity_name not in activities`. -/
def findActivity (s : AppState) (name : String) : Option Activity :=
  match s with
  | [] => none
  | (n, act) :: rest => if n = name then some act else findActivity rest name

/-- In-place mutation of the record stored under key `name`: every entry
whose key is `name` is replaced (keys are unique in every reachable state,
so at most one entry changes). -/
def updateActivity : AppState → String → Activity → AppState
  | [], _, _ => []
  | (n, act0) :: rest, name, act =>
    (n, if n = name then act else act0) :: updateActivity rest name act

/-- Number of occurrences of an email in a participants list; used to state
that an email appears exactly once. -/
def countOcc : List String → String → Nat
  | [], _ => 0
  | x :: xs, e => (if x = e then 1 else 0) + countOcc xs e

/-- Python `list.remove(x)`: removes the first occurrence of `x`; leaves the
list unchanged when `x` is absent (the endpoint only calls it after a
membership check, so that case never arises in the code). -/
def removeFirst : List String → String → List String
  | [], _ => []
  | x :: xs, e => if x = e then xs else x :: removeFirst xs e

/-- The message returned by a successful signup:
`f"Signed up {email} for {activity_name}"`. -/
def signupMessage (email activity_name : String) : String :=
  "Signed up " ++ email ++ " for " ++ activity_name

/-- The message returned by a successful unregister:
`f"Unregistered {email} from {activity_name}"`. -/
def unregisterMessage (email activity_name : String) : String :=
  "Unregistered " ++ email ++ " from " ++ activity_name

/-- `GET /activities` (lines 85-87 of `src/app.py`): returns the
`activities` dictionary itself. -/
def get_activities (s : AppState) : AppState := s

/-- `POST /activities/.../signup` (lines 95-114 of `src/app.py`):
404 if the activity name is unknown, 400 if the email is already in its
participants list, otherwise append the email and return a confirmation
message. -/
def signup_for_activity (s : AppState) (activity_name email : String) :
    Except HTTPError (AppState × String) :=
  match findActivity s activity_name with
  | none => .error activityNotFound
  | some activity =>
    if email ∈ activity.participants then
      .error alreadySignedUp
    else
      .ok (updateActivity s activity_name
             { activity with participants := activity.participants ++ [email] },
           signupMessage email activity_name)

/-- `DELETE /activities/.../unregister` (lines 117-136 of `src/app.py`):
404 if the activity name is unknown, 400 if the email is not in its
participants list, otherwise remove the email and return a confirmation
message. -/
def unregister_from_activity (s : AppState) (activity_name email : String) :
    Except HTTPError (AppState × String) :=
  match findActivity s activity_name with
  | none => .error activityNotFound
  | some activity =>
    if email ∈ activity.participants then
      .ok (updateActivity s activity_name
             { activity with participants := removeFirst activity.participants email },
           unregisterMessage email activity_name)
    else
      .error notSignedUp

/-- A client request against the two mutating endpoints. -/
inductive Op where
  | signup (activity_name email : String)
  | unregister (activity_name email : String)
deriving DecidableEq, Repr

/-- Effect of one request on the server state: on success the state is the
updated dictionary; a raised `HTTPException` aborts the handler before any
mutation (both handlers validate before they mutate), leaving the state as
it was. -/
def applyOp (s : AppState) : Op → AppState
  | .signup a e =>
    match signup_for_activity s a e with
    | .ok (s', _) => s'
    | .error _ => s
  | .unregister a e =>
    match unregister_from_activity s a e with
    | .ok (s', _) => s'
    | .error _ => s

/-- State after serving a sequence of requests. -/
def runOps (s : AppState) (ops : List Op) : AppState :=
  ops.foldl applyOp s

/-- Derived activity set of a participant: in this code the membership
relation is stored once, on the activity side, so a participant's
activities are the names of the activities whose participant list contains
their email (the inverse view that `database.py` realizes through the
shared `participant_activity` association table). -/
def participantActivities (s : AppState) (email : String) : List String :=
  (s.filter (fun p => decide (email ∈ p.2.participants))).map (fun p => p.1)

/-- Invariant: no participants list contains a duplicate email. -/
def NoDupState (s : AppState) : Prop :=
  ∀ p ∈ s, (p.2).participants.Nodup

/-- Invariant: activity names are unique keys of the dictionary. -/
def KeysNodup (s : AppState) : Prop :=
  (s.map (fun p => p.1)).Nodup

instance (s : AppState) : Decidable (NoDupState s) := by
  unfold NoDupState; infer_instance

instance (s : AppState) : Decidable (KeysNodup s) := by
  unfold KeysNodup; infer_instance

/-- A one-activity state used to instantiate theorems at concrete inputs:
activity "A" has capacity 1 and is already full with participant "b". -/
def demoState : AppState :=
  [("A", { description := "d", schedule := "w", max_participants := 1,
           participants := ["b"] })]

/-- The state `demoState` after "e" signs up for "A". -/
def demoState1 : AppState :=
  [("A", { description := "d", schedule := "w", max_participants := 1,
           participants := ["b", "e"] })]

/- Helper lemmas about lookup and update. -/

theorem findActivity_update_self (s : AppState) (a : String) (newAct : Activity)
    (h : (findActivity s a).isSome) :
    findActivity (updateActivity s a newAct) a = some newAct := by
  induction s with
  | nil => simp [findActivity] at h
  | cons p rest ih =>
    obtain ⟨n0, act0⟩ := p
    by_cases hp : n0 = a
    · simp [updateActivity, findActivity, hp]
    · simp [updateActivity, findActivity, hp] at h ⊢
      exact ih h

theorem findActivity_update_ne (s : AppState) (a n : String) (act : Activity)
    (h : n ≠ a) :
    findActivity (updateActivity s a act) n = findActivity s n := by
  induction s with
  | nil => rfl
  | cons p rest ih =>
    obtain ⟨n0, act0⟩ := p
    by_cases hp : n0 = a
    · simp [updateActivity, findActivity, hp, Ne.symm h, ih]
    · by_cases hn : n0 = n
      · have hna : ¬ n = a := fun hh => hp (hn.trans hh)
        simp [updateActivity, findActivity, hp, hn, hna]
      · simp [updateActivity, findActivity, hp, hn, ih]

theorem updateActivity_keys (s : AppState) (a : String) (act : Activity) :
    (updateActivity s a act).map (fun p => p.1) = s.map (fun p => p.1) := by
  induction s with
  | nil => rfl
  | cons p rest ih =>
    obtain ⟨n0, act0⟩ := p
    by_cases hp : n0 = a
    · simp [updateActivity, hp, ih]
    · simp [updateActivity, hp, ih]

theorem mem_updateActivity {s : AppState} {a : String} {act : Activity}
    {p : String × Activity} (h : p ∈ updateActivity s a act) :
    p ∈ s ∨ p.2 = act := by
  induction s with
  | nil => simp [updateActivity] at h
  | cons q rest ih =>
    obtain ⟨n0, act0⟩ := q
    by_cases hq : n0 = a
    · simp only [updateActivity, hq, eq_self_iff_true, if_true, List.mem_cons] at h
      rcases h with h | h
      · right; rw [h]
      · rcases ih h with h1 | h1
        · left; exact List.mem_cons_of_mem _ h1
        · right; exact h1
    · simp only [updateActivity, if_neg hq, List.mem_cons] at h
      rcases h with h | h
      · left; exact h ▸ List.mem_cons_self _ _
      · rcases ih h with h1 | h1
        · left; exact List.mem_cons_of_mem _ h1
        · right; exact h1

theorem findActivity_some_mem {s : AppState} {a : String} {act : Activity}
    (h : findActivity s a = some act) : (a, act) ∈ s := by
  induction s with
  | nil => simp [findActivity] at h
  | cons p rest ih =>
    obtain ⟨n, act0⟩ := p
    by_cases hp : n = a
    · simp [findActivity, hp] at h
      subst hp; subst h
      exact List.mem_cons_self _ _
    · simp [findActivity, hp] at h
      exact List.mem_cons_of_mem _ (ih h)

theorem findActivity_of_mem (s : AppState) (a : String) (act : Activity) :
    KeysNodup s → (a, act) ∈ s → findActivity s a = some act := by
  induction s with
  | nil => intro _ h; simp at h
  | cons p rest ih =>
    intro hk h
    obtain ⟨n, act0⟩ := p
    unfold KeysNodup at hk
    rw [List.map_cons, List.nodup_cons] at hk
    rcases List.mem_cons.mp h with h1 | h1
    · obtain ⟨ha, hact⟩ := Prod.mk.injEq .. ▸ h1.symm
      simp [findActivity, ha, hact]
    · have hmem : a ∈ rest.map (fun p => p.1) :=
        List.mem_map.mpr ⟨(a, act), h1, rfl⟩
      have hn : ¬ n = a := fun hh => hk.1 (hh ▸ hmem)
      simp [findActivity, hn]
      exact ih hk.2 h1

/- Helper lemmas about participant lists. -/

theorem countOcc_append (l1 l2 : List String) (e : String) :
    countOcc (l1 ++ l2) e = countOcc l1 e + countOcc l2 e := by
  induction l1 with
  | nil => simp [countOcc]
  | cons x xs ih => simp [countOcc, ih, Nat.add_assoc]

theorem countOcc_eq_zero (l : List String) (e : String) (h : e ∉ l) :
    countOcc l e = 0 := by
  induction l with
  | nil => rfl
  | cons x xs ih =>
    simp only [List.mem_cons, not_or] at h
    have hx : ¬ x = e := fun hh => h.1 hh.symm
    simp [countOcc, hx, ih h.2]

theorem mem_removeFirst {l : List String} {x e : String}
    (h : x ∈ removeFirst l e) : x ∈ l := by
  induction l with
  | nil => simp [removeFirst] at h
  | cons y ys ih =>
    by_cases hy : y = e
    · simp [removeFirst, hy] at h
      exact List.mem_cons_of_mem _ h
    · simp [removeFirst, hy] at h
      rcases h with h | h
      · exact h ▸ List.mem_cons_self _ _
      · exact List.mem_cons_of_mem _ (ih h)

theorem nodup_removeFirst (l : List String) (e : String) (h : l.Nodup) :
    (removeFirst l e).Nodup := by
  induction l with
  | nil => simp [removeFirst]
  | cons y ys ih =>
    rw [List.nodup_cons] at h
    by_cases hy : y = e
    · simp [removeFirst, hy]
      exact h.2
    · simp [removeFirst, hy, List.nodup_cons]
      exact ⟨fun hm => h.1 (mem_removeFirst hm), ih h.2⟩

theorem removeFirst_append_self (l : List String) (e : String) (h : e ∉ l) :
    removeFirst (l ++ [e]) e = l := by
  induction l with
  | nil => simp [removeFirst]
  | cons y ys ih =>
    simp only [List.mem_cons, not_or] at h
    have hy : ¬ y = e := fun hh => h.1 hh.symm
    simp [removeFirst, hy, ih h.2]

theorem nodup_append_singleton (l : List String) (e : String)
    (h1 : l.Nodup) (h2 : e ∉ l) : (l ++ [e]).Nodup := by
  rw [List.nodup_append]
  refine ⟨h1, List.nodup_singleton e, ?_⟩
  intro x hx hxe
  rw [List.mem_singleton] at hxe
  exact h2 (hxe ▸ hx)

/- Characterization of the two endpoints. -/

theorem signup_ok (s : AppState) (a e : String) (act : Activity)
    (h1 : findActivity s a = some act) (h2 : e ∉ act.participants) :
    signup_for_activity s a e =
      .ok (updateActivity s a { act with participants := act.participants ++ [e] },
           signupMessage e a) := by
  simp [signup_for_activity, h1, h2]

theorem signup_ok_elim (s s' : AppState) (a e m : String)
    (h : signup_for_activity s a e = .ok (s', m)) :
    ∃ act, findActivity s a = some act ∧ e ∉ act.participants ∧
      s' = updateActivity s a { act with participants := act.participants ++ [e] } := by
  unfold signup_for_activity at h
  cases hf : findActivity s a with
  | none => rw [hf] at h; exact absurd h (by simp)
  | some act =>
    rw [hf] at h
    by_cases hm : e ∈ act.participants
    · simp [hm] at h
    · simp [hm] at h
      exact ⟨act, rfl, hm, h.1.symm⟩

theorem unregister_ok (s : AppState) (a e : String) (act : Activity)
    (h1 : findActivity s a = some act) (h2 : e ∈ act.participants) :
    unregister_from_activity s a e =
      .ok (updateActivity s a { act with participants := removeFirst act.participants e },
           unregisterMessage e a) := by
  simp [unregister_from_activity, h1, h2]

theorem unregister_ok_elim (s s' : AppState) (a e m : String)
    (h : unregister_from_activity s a e = .ok (s', m)) :
    ∃ act, findActivity s a = some act ∧ e ∈ act.participants ∧
      s' = updateActivity s a { act with participants := removeFirst act.participants e } := by
  unfold unregister_from_activity at h
  cases hf : findActivity s a with
  | none => rw [hf] at h; exact absurd h (by simp)
  | some act =>
    rw [hf] at h
    by_cases hm : e ∈ act.participants
    · simp [hm] at h
      exact ⟨act, rfl, hm, h.1.symm⟩
    · simp [hm] at h

/- Reduction lemmas for the effect of one request on the state. -/

theorem applyOp_signup_ok {s s' : AppState} {a e m : String}
    (h : signup_for_activity s a e = .ok (s', m)) :
    applyOp s (.signup a e) = s' := by
  simp [applyOp, h]

theorem applyOp_signup_error {s : AppState} {a e : String} {err : HTTPError}
    (h : signup_for_activity s a e = .error err) :
    applyOp s (.signup a e) = s := by
  simp [applyOp, h]

theorem applyOp_unregister_ok {s s' : AppState} {a e m : String}
    (h : unregister_from_activity s a e = .ok (s', m)) :
    applyOp s (.unregister a e) = s' := by
  simp [applyOp, h]

theorem applyOp_unregister_error {s : AppState} {a e : String} {err : HTTPError}
    (h : unregister_from_activity s a e = .error err) :
    applyOp s (.unregister a e) = s := by
  simp [applyOp, h]

theorem runOps_cons (s : AppState) (o : Op) (ops : List Op) :
    runOps s (o :: ops) = runOps (applyOp s o) ops := rfl

/- Preservation of the two state invariants by every request. -/

theorem NoDupState_update (s : AppState) (a : String) (act : Activity)
    (hs : NoDupState s) (ha : act.participants.Nodup) :
    NoDupState (updateActivity s a act) := by
  intro p hp
  rcases mem_updateActivity hp with h | h
  · exact hs p h
  · rw [h]; exact ha

theorem applyOp_keys (s : AppState) (o : Op) :
    (applyOp s o).map (fun p => p.1) = s.map (fun p => p.1) := by
  cases o with
  | signup a e =>
    cases hr : signup_for_activity s a e with
    | ok r =>
      obtain ⟨s', m⟩ := r
      obtain ⟨act, hf, hm, hs'⟩ := signup_ok_elim s s' a e m hr
      rw [applyOp_signup_ok hr, hs', updateActivity_keys]
    | error err => rw [applyOp_signup_error hr]
  | unregister a e =>
    cases hr : unregister_from_activity s a e with
    | ok r =>
      obtain ⟨s', m⟩ := r
      obtain ⟨act, hf, hm, hs'⟩ := unregister_ok_elim s s' a e m hr
      rw [applyOp_unregister_ok hr, hs', updateActivity_keys]
    | error err => rw [applyOp_unregister_error hr]

theorem applyOp_nodup (s : AppState) (o : Op) (hs : NoDupState s) :
    NoDupState (applyOp s o) := by
  cases o with
  | signup a e =>
    cases hr : signup_for_activity s a e with
    | ok r =>
      obtain ⟨s', m⟩ := r
      obtain ⟨act, hf, hm, hs'⟩ := signup_ok_elim s s' a e m hr
      rw [applyOp_signup_ok hr, hs']
      have hnd : act.participants.Nodup := hs (a, act) (findActivity_some_mem hf)
      exact NoDupState_update s a _ hs (nodup_append_singleton _ _ hnd hm)
    | error err => rw [applyOp_signup_error hr]; exact hs
  | unregister a e =>
    cases hr : unregister_from_activity s a e with
    | ok r =>
      obtain ⟨s', m⟩ := r
      obtain ⟨act, hf, hm, hs'⟩ := unregister_ok_elim s s' a e m hr
      rw [applyOp_unregister_ok hr, hs']
      have hnd : act.participants.Nodup := hs (a, act) (findActivity_some_mem hf)
      exact NoDupState_update s a _ hs (nodup_removeFirst _ _ hnd)
    | error err => rw [applyOp_unregister_error hr]; exact hs

theorem runOps_keys (s : AppState) (ops : List Op) :
    (runOps s ops).map (fun p => p.1) = s.map (fun p => p.1) := by
  induction ops generalizing s with
  | nil => rfl
  | cons o rest ih => rw [runOps_cons, ih, applyOp_keys]

theorem runOps_nodup (s : AppState) (ops : List Op) (hs : NoDupState s) :
    NoDupState (runOps s ops) := by
  induction ops generalizing s with
  | nil => exact hs
  | cons o rest ih => exact ih _ (applyOp_nodup s o hs)

theorem KeysNodup_runOps (s : AppState) (ops : List Op) (hs : KeysNodup s) :
    KeysNodup (runOps s ops) := by
  unfold KeysNodup at hs ⊢
  rw [runOps_keys]
  exact hs

/- Characterization of the derived participant-side view of the membership
relation. -/

theorem mem_participantActivities (s : AppState) (a e : String) (hk : KeysNodup s) :
    a ∈ participantActivities s e ↔
      ∃ act, findActivity s a = some act ∧ e ∈ act.participants := by
  unfold participantActivities
  constructor
  · intro h
    obtain ⟨p, hp, hpa⟩ := List.mem_map.mp h
    obtain ⟨hmem, hpred⟩ := List.mem_filter.mp hp
    refine ⟨p.2, ?_, of_decide_eq_true hpred⟩
    have hpe : p = (a, p.2) := by rw [← hpa]
    exact findActivity_of_mem s a p.2 hk (hpe ▸ hmem)
  · rintro ⟨act, hf, hm⟩
    exact List.mem_map.mpr ⟨(a, act),
      List.mem_filter.mpr ⟨findActivity_some_mem hf, decide_eq_true hm⟩, rfl⟩

/-- Claim C1: after a successful signUp(A, e) the state records e as enrolled
in A, so a repeated signUp(A, e) fails with the AlreadyEnrolled error (400,
"Student is already signed up") and e appears exactly once in the
participants list that listAll reports for A. -/
theorem claim_C1 (s s' : AppState) (a e m : String)
    (h : signup_for_activity s a e = .ok (s', m)) :
    signup_for_activity s' a e = .error alreadySignedUp ∧
    ∃ act, findActivity (get_activities s') a = some act ∧
      countOcc act.participants e = 1 := by
  obtain ⟨act, hf, hm, hs'⟩ := signup_ok_elim s s' a e m h
  have hf2 : findActivity s' a =
      some { act with participants := act.participants ++ [e] } := by
    rw [hs']
    exact findActivity_update_self s a _ (by rw [hf]; rfl)
  refine ⟨?_, { act with participants := act.participants ++ [e] }, hf2, ?_⟩
  · simp [signup_for_activity, hf2]
  · simp [countOcc_append, countOcc_eq_zero act.participants e hm, countOcc]

/-- Witness for C1 at the one-activity demo state. -/
theorem claim_C1_witness :
    signup_for_activity demoState1 "A" "e" = .error alreadySignedUp ∧
    ∃ act, findActivity (get_activities demoState1) "A" = some act ∧
      countOcc act.participants "e" = 1 :=
  claim_C1 demoState demoState1 "A" "e" (signupMessage "e" "A") rfl

/-- Claim C2: for an activity name absent from the store, both signUp and
unregister fail with ActivityNotFound (HTTP 404) regardless of the email:
the activity-existence check is resolved first in both handlers. -/
theorem claim_C2 (s : AppState) (a e : String) (h : findActivity s a = none) :
    signup_for_activity s a e = .error activityNotFound ∧
    unregister_from_activity s a e = .error activityNotFound ∧
    activityNotFound.status = 404 := by
  refine ⟨?_, ?_, rfl⟩
  · simp [signup_for_activity, h]
  · simp [unregister_from_activity, h]

/-- Witness for C2 at the seed state with the unknown name from the spec's
example. -/
theorem claim_C2_witness :
    signup_for_activity activities "Unknown Club" "x@y.edu" = .error activityNotFound ∧
    unregister_from_activity activities "Unknown Club" "x@y.edu" = .error activityNotFound ∧
    activityNotFound.status = 404 :=
  claim_C2 activities "Unknown Club" "x@y.edu" rfl

/-- Claim C3: unregistering an email that is not currently enrolled in an
existing activity fails with the NotEnrolled error (HTTP 400). -/
theorem claim_C3 (s : AppState) (a e : String) (act : Activity)
    (h1 : findActivity s a = some act) (h2 : e ∉ act.participants) :
    unregister_from_activity s a e = .error notSignedUp ∧
    notSignedUp.status = 400 := by
  refine ⟨?_, rfl⟩
  simp [unregister_from_activity, h1, h2]

/-- Witness for C3 at the seed state: a fresh email cannot unregister from
Chess Club. -/
theorem claim_C3_witness :
    unregister_from_activity activities "Chess Club" "new@mergington.edu" =
      .error notSignedUp ∧
    notSignedUp.status = 400 :=
  claim_C3 activities "Chess Club" "new@mergington.edu" _ rfl (by decide)

/-- Claim C4: for an existing activity and an email not enrolled in it,
signUp followed by unregister returns the membership to NotEnrolled: the
email is absent from the participants list that listAll reports. -/
theorem claim_C4 (s : AppState) (a e : String) (act : Activity)
    (h1 : findActivity s a = some act) (h2 : e ∉ act.participants) :
    ∃ s' m s'' m2,
      signup_for_activity s a e = .ok (s', m) ∧
      unregister_from_activity s' a e = .ok (s'', m2) ∧
      ∃ act2, findActivity (get_activities s'') a = some act2 ∧
        e ∉ act2.participants := by
  have hsgn := signup_ok s a e act h1 h2
  have hf2 : findActivity
      (updateActivity s a { act with participants := act.participants ++ [e] }) a =
      some { act with participants := act.participants ++ [e] } :=
    findActivity_update_self s a _ (by rw [h1]; rfl)
  have hmem2 : e ∈
      (Activity.participants { act with participants := act.participants ++ [e] }) := by
    simp
  have hunr := unregister_ok _ a e _ hf2 hmem2
  refine ⟨_, _, _, _, hsgn, hunr, ?_⟩
  have hf3 := findActivity_update_self
      (updateActivity s a { act with participants := act.participants ++ [e] }) a
      { act with participants := removeFirst (act.participants ++ [e]) e }
      (by rw [hf2]; rfl)
  refine ⟨_, hf3, ?_⟩
  simpa [removeFirst_append_self act.participants e h2] using h2

/-- Witness for C4 at the one-activity demo state. -/
theorem claim_C4_witness :
    ∃ s' m s'' m2,
      signup_for_activity demoState "A" "e" = .ok (s', m) ∧
      unregister_from_activity s' "A" "e" = .ok (s'', m2) ∧
      ∃ act2, findActivity (get_activities s'') "A" = some act2 ∧
        "e" ∉ act2.participants :=
  claim_C4 demoState "A" "e" _ rfl (by decide)

/-- Claim C5: in every state reachable from the seed by any sequence of
signup and unregister requests, no activity's participants list contains a
duplicate email. -/
theorem claim_C5 (ops : List Op) : NoDupState (runOps activities ops) :=
  runOps_nodup activities ops (by decide)

/-- Claim C6: whenever signUp or unregister raises an error, the state seen
by subsequent requests is exactly the state before the call: the handlers
validate before they mutate, so a failing request has no effect. -/
theorem claim_C6 (s : AppState) (a e : String) :
    (∀ err, signup_for_activity s a e = .error err →
      applyOp s (.signup a e) = s) ∧
    (∀ err, unregister_from_activity s a e = .error err →
      applyOp s (.unregister a e) = s) :=
  ⟨fun _ h => applyOp_signup_error h, fun _ h => applyOp_unregister_error h⟩

/-- Witness for C6 at the seed state: a 404 signup and a 400 unregister both
leave the seed unchanged. -/
theorem claim_C6_witness :
    applyOp activities (Op.signup "Unknown Club" "x@y.edu") = activities ∧
    applyOp activities (Op.unregister "Chess Club" "new@mergington.edu") = activities :=
  ⟨(claim_C6 activities "Unknown Club" "x@y.edu").1 activityNotFound rfl,
   (claim_C6 activities "Chess Club" "new@mergington.edu").2 notSignedUp rfl⟩

/-- Claim C7: max_participants is never enforced - a signup for an activity
that is at or over its advisory capacity still succeeds and appends the
email. -/
theorem claim_C7 (s : AppState) (a e : String) (act : Activity)
    (h1 : findActivity s a = some act) (h2 : e ∉ act.participants)
    (_h3 : act.max_participants ≤ act.participants.length) :
    signup_for_activity s a e =
      .ok (updateActivity s a { act with participants := act.participants ++ [e] },
           signupMessage e a) :=
  signup_ok s a e act h1 h2

/-- Witness for C7: activity "A" of the demo state has capacity 1 and is
already full, yet signing "e" up succeeds. -/
theorem claim_C7_witness :
    signup_for_activity demoState "A" "e" =
      .ok (updateActivity demoState "A"
             { description := "d", schedule := "w", max_participants := 1,
               participants := ["b"] ++ ["e"] },
           signupMessage "e" "A") :=
  claim_C7 demoState "A" "e"
    { description := "d", schedule := "w", max_participants := 1, participants := ["b"] }
    rfl (by decide) (by decide)

/-- Claim C8: after any sequence of signup/unregister requests from the
seed, the membership relation is symmetric - an activity name is in a
participant's derived activity set iff the participant's email is in that
activity's participants list. -/
theorem claim_C8 (ops : List Op) (a e : String) :
    a ∈ participantActivities (runOps activities ops) e ↔
      ∃ act, findActivity (runOps activities ops) a = some act ∧
        e ∈ act.participants :=
  mem_participantActivities _ a e (KeysNodup_runOps activities ops (by decide))

/-- Claim C9: listAll is read-only - it returns the state unchanged - and
reports for each activity exactly its stored description, schedule,
max_participants and participants. -/
theorem claim_C9 (s : AppState) :
    get_activities s = s ∧
    ∀ n act, findActivity s n = some act →
      findActivity (get_activities s) n =
        some { description := act.description, schedule := act.schedule,
               max_participants := act.max_participants,
               participants := act.participants } :=
  ⟨rfl, fun _ _ h => h⟩

/-- Witness for C9 at the one-activity demo state. -/
theorem claim_C9_witness :
    get_activities demoState = demoState ∧
    findActivity (get_activities demoState) "A" =
      some { description := "d", schedule := "w", max_participants := 1,
             participants := ["b"] } :=
  ⟨(claim_C9 demoState).1, (claim_C9 demoState).2 "A" _ rfl⟩

/-- Claim C10: each request touches at most the participants list of the
target activity - every other activity and the target's other fields are
unchanged - a successful signup appends the email at the end of the list,
and a failing request leaves the state exactly as it was. -/
theorem claim_C10 (s : AppState) (a e : String) :
    (∀ s' m, signup_for_activity s a e = .ok (s', m) →
      (∀ n, n ≠ a → findActivity s' n = findActivity s n) ∧
      ∀ act, findActivity s a = some act →
        findActivity s' a =
          some { act with participants := act.participants ++ [e] }) ∧
    (∀ s' m, unregister_from_activity s a e = .ok (s', m) →
      (∀ n, n ≠ a → findActivity s' n = findActivity s n) ∧
      ∀ act, findActivity s a = some act →
        findActivity s' a =
          some { act with participants := removeFirst act.participants e }) ∧
    (∀ err, signup_for_activity s a e = .error err →
      applyOp s (.signup a e) = s) ∧
    (∀ err, unregister_from_activity s a e = .error err →
      applyOp s (.unregister a e) = s) := by
  refine ⟨?_, ?_, fun _ h => applyOp_signup_error h,
    fun _ h => applyOp_unregister_error h⟩
  · intro s' m h
    obtain ⟨act, hf, hm, hs'⟩ := signup_ok_elim s s' a e m h
    constructor
    · intro n hn
      rw [hs']
      exact findActivity_update_ne s a n _ hn
    · intro act2 hf2
      rw [hf] at hf2
      obtain rfl : act = act2 := by injection hf2 with hh
      rw [hs']
      exact findActivity_update_self s a _ (by rw [hf]; rfl)
  · intro s' m h
    obtain ⟨act, hf, hm, hs'⟩ := unregister_ok_elim s s' a e m h
    constructor
    · intro n hn
      rw [hs']
      exact findActivity_update_ne s a n _ hn
    · intro act2 hf2
      rw [hf] at hf2
      obtain rfl : act = act2 := by injection hf2 with hh
      rw [hs']
      exact findActivity_update_self s a _ (by rw [hf]; rfl)

/-- Witness for C10: the successful demo signup yields the expected record
for activity "A". -/
theorem claim_C10_witness :
    findActivity demoState1 "A" =
      some { description := "d", schedule := "w", max_participants := 1,
             participants := ["b", "e"] } :=
  ((claim_C10 demoState "A" "e").1 demoState1 (signupMessage "e" "A") rfl).2
    { description := "d", schedule := "w", max_participants := 1,
      participants := ["b"] } rfl

end MergingtonApi
